import Mathlib

/-!
Verification of the constrained-spline fitting core (`model.py`) and its
coordinate scaler (`scale.py`).  Real-valued quantities are modelled by `ℚ`;
Python exceptions are modelled by an explicit error type and `Except`;
numpy coefficient matrices are modelled by total functions `ℕ → ℕ → ℚ`
indexed by (row, column) as produced by `cv.Variable((d+1, M+1))`.
-/

/-- Python exception classes that the embedded code can raise.  `valueError`
models `ValueError` (raised explicitly by the validation checks, the
evaluator's domain check and the assembler's derivative-order check),
`zeroDivisionError` models the `ZeroDivisionError` a float division by zero
raises, and `indexError` models the `IndexError` of an out-of-range list
subscript such as `support_points[0]` on an empty list. -/
inductive PyError where
  | valueError
  | zeroDivisionError
  | indexError
deriving DecidableEq, Repr

/-- Embedding of `scale.py::scale_x_value`: affine map of `original_x` from
the interval `[original_x_min, original_x_max]` onto `scaled_bounds`.  The
Python body is a single `return scaled_min + (original_x - original_x_min) *
(scaled_max - scaled_min) / (original_x_max - original_x_min)`; when
`original_x_max - original_x_min` is zero that division raises
`ZeroDivisionError`. -/
def scale_x_value (original_x original_x_min original_x_max : ℚ)
    (scaled_bounds : ℚ × ℚ) : Except PyError ℚ :=
  if original_x_max - original_x_min = 0 then Except.error PyError.zeroDivisionError
  else Except.ok (scaled_bounds.1 +
    (original_x - original_x_min) * (scaled_bounds.2 - scaled_bounds.1) /
      (original_x_max - original_x_min))

/-- Embedding of `scale.py::unscale_x_value`: inverse affine map, from
`scaled_bounds` back to `[original_x_min, original_x_max]`.  The division by
`scaled_max - scaled_min` raises `ZeroDivisionError` when that difference is
zero. -/
def unscale_x_value (scaled_x original_x_min original_x_max : ℚ)
    (scaled_bounds : ℚ × ℚ) : Except PyError ℚ :=
  if scaled_bounds.2 - scaled_bounds.1 = 0 then Except.error PyError.zeroDivisionError
  else Except.ok (original_x_min +
    (scaled_x - scaled_bounds.1) * (original_x_max - original_x_min) /
      (scaled_bounds.2 - scaled_bounds.1))

/-- Embedding of `scale.py::unscale_splines`: wraps a spline evaluator
defined on the scaled interval so that it can be called with arguments from
the original domain.  The inner function `spline_original` computes
`x_s = scaled_min + (x_orig - original_x_min) * (scaled_max - scaled_min) /
(original_x_max - original_x_min)` (the same formula as `scale_x_value`,
inlined in the source) and returns `spline_scaled(x_s)`. -/
def unscale_splines (spline_scaled : ℚ → ℚ)
    (original_x_min original_x_max : ℚ) (scaled_bounds : ℚ × ℚ) :
    ℚ → Except PyError ℚ :=
  fun x_orig =>
    if original_x_max - original_x_min = 0 then Except.error PyError.zeroDivisionError
    else Except.ok (spline_scaled (scaled_bounds.1 +
      (x_orig - original_x_min) * (scaled_bounds.2 - scaled_bounds.1) /
        (original_x_max - original_x_min)))

/-- Boolean check that a list is nondecreasing; embeds the Python test
`support_points != sorted(support_points)` from Validation 2 of
`model.py::fit_parameter` (a list equals its sorted copy exactly when it is
already nondecreasing). -/
def isNondecreasing : List ℚ → Bool
  | [] => true
  | [_] => true
  | a :: b :: t => decide (a ≤ b) && isNondecreasing (b :: t)

/-- Boolean check that a list has no duplicate entries; embeds the Python
test `len(set(support_points)) != len(support_points)` from Validation 4 of
`model.py::fit_parameter`. -/
def noDuplicates : List ℚ → Bool
  | [] => true
  | a :: t => !(decide (a ∈ t)) && noDuplicates t

/-- Embedding of the validation phase of `model.py::fit_parameter`
(Validations 1-7, lines 49-76), executed before any optimization variable or
constraint is constructed.  Each failed check raises `ValueError`.  The
`sampling_interval` argument is received (as in the Python signature) but no
check inspects it. -/
def fit_validate (points : List (ℚ × ℚ)) (support_points : List ℚ)
    (konvex_until : ℚ) (bounds : ℚ × ℚ) (degree_of_spline : ℤ)
    (sampling_interval : ℚ) : Except PyError Unit :=
  if decide (bounds.1 ≥ bounds.2) then Except.error PyError.valueError
  else if !isNondecreasing support_points then Except.error PyError.valueError
  else if !support_points.all (fun t => decide (bounds.1 ≤ t) && decide (t ≤ bounds.2)) then
    Except.error PyError.valueError
  else if !noDuplicates support_points then Except.error PyError.valueError
  else if !points.all (fun p => decide (bounds.1 ≤ p.1) && decide (p.1 ≤ bounds.2)) then
    Except.error PyError.valueError
  else if !(decide (konvex_until ∈ support_points)) then Except.error PyError.valueError
  else if decide (degree_of_spline < 3) then Except.error PyError.valueError
  else Except.ok ()

/-- Value of the degree-`d` polynomial of segment `i` at `x`:
`sum(matrix[j, i] * x**(d - j) for j in range(d + 1))`, the expression used
for the smoothness equalities and the residuals in `fit_parameter` and (with
`d = num_rows - 1`) in the evaluator of `assemble_splines`. -/
def polyVal (a : ℕ → ℕ → ℚ) (d i : ℕ) (x : ℚ) : ℚ :=
  ∑ j ∈ Finset.range (d + 1), a j i * x ^ (d - j)

/-- First-derivative expression of segment `i` at `x`:
`sum(matrix[j, i] * (d - j) * x**(d - j - 1) for j in range(d))`. -/
def polyDer1 (a : ℕ → ℕ → ℚ) (d i : ℕ) (x : ℚ) : ℚ :=
  ∑ j ∈ Finset.range d, a j i * ((d - j : ℕ) : ℚ) * x ^ (d - j - 1)

/-- Second-derivative expression of segment `i` at `x`:
`sum(matrix[j, i] * (d - j) * (d - j - 1) * x**(d - j - 2) for j in range(d - 1))`. -/
def polyDer2 (a : ℕ → ℕ → ℚ) (d i : ℕ) (x : ℚ) : ℚ :=
  ∑ j ∈ Finset.range (d - 1),
    a j i * ((d - j : ℕ) : ℚ) * ((d - j - 1 : ℕ) : ℚ) * x ^ (d - j - 2)

/-- Third-derivative expression of segment `i` at `x`:
`sum(matrix[j, i] * (d - j) * (d - j - 1) * (d - j - 2) * x**(d - j - 3) for j in range(d - 2))`. -/
def polyDer3 (a : ℕ → ℕ → ℚ) (d i : ℕ) (x : ℚ) : ℚ :=
  ∑ j ∈ Finset.range (d - 2),
    a j i * ((d - j : ℕ) : ℚ) * ((d - j - 1 : ℕ) : ℚ) * ((d - j - 2 : ℕ) : ℚ) *
      x ^ (d - j - 3)

/-- The degree-`d` polynomial of segment `i` as a formal polynomial,
`Σ_{j=0}^{d} matrix[j, i] · X^(d-j)`; used to relate the code's derivative
expressions to genuine polynomial derivatives. -/
noncomputable def segPoly (a : ℕ → ℕ → ℚ) (d i : ℕ) : Polynomial ℚ :=
  ∑ j ∈ Finset.range (d + 1), Polynomial.C (a j i) * Polynomial.X ^ (d - j)

/-- One scalar smoothness equality constraint appended by the first loop of
`fit_parameter`: equality of the value, the first-derivative expression or
the second-derivative expression of columns `i` and `i+1` at `x`. -/
inductive SmoothCon where
  | val (i : ℕ) (x : ℚ)
  | der1 (i : ℕ) (x : ℚ)
  | der2 (i : ℕ) (x : ℚ)
deriving DecidableEq, Repr

/-- Meaning of a smoothness constraint for degree `d` and coefficient
matrix `a`. -/
def SmoothCon.holds (d : ℕ) (a : ℕ → ℕ → ℚ) : SmoothCon → Prop
  | SmoothCon.val i x => polyVal a d i x = polyVal a d (i + 1) x
  | SmoothCon.der1 i x => polyDer1 a d i x = polyDer1 a d (i + 1) x
  | SmoothCon.der2 i x => polyDer2 a d i x = polyDer2 a d (i + 1) x

/-- Embedding of the first constraint loop of `fit_parameter` (lines 82-117):
for each support point index `i` (in order), the three equality constraints
between segment `i` and segment `i+1` evaluated at `x = support_points[i]`. -/
def smoothnessConstraints (support_points : List ℚ) : List SmoothCon :=
  (List.range support_points.length).flatMap (fun i =>
    [SmoothCon.val i (support_points.getD i 0),
     SmoothCon.der1 i (support_points.getD i 0),
     SmoothCon.der2 i (support_points.getD i 0)])

/-- Segment boundaries used by the second constraint loop of
`fit_parameter`: segment 0 runs from `bounds[0]` to `support_points[0]`,
segment `i` (for `0 < i < len(support_points)`) from `support_points[i-1]`
to `support_points[i]`, and the last segment from `support_points[-1]` to
`bounds[1]`. -/
def segmentRange (support_points : List ℚ) (bounds : ℚ × ℚ) (i : ℕ) : ℚ × ℚ :=
  if i = 0 then (bounds.1, support_points.getD 0 0)
  else if i < support_points.length then
    (support_points.getD (i - 1) 0, support_points.getD i 0)
  else (support_points.getD (support_points.length - 1) 0, bounds.2)

/-- Embedding of `np.arange(start, stop, step)` over `ℚ`: the points
`start + k·step` for `0 ≤ k < ⌈(stop - start)/step⌉`. -/
def arangeGrid (start stop step : ℚ) : List ℚ :=
  (List.range (⌈(stop - start) / step⌉.toNat)).map
    (fun k : ℕ => start + (k : ℚ) * step)

/-- One scalar shape inequality constraint appended by the second loop of
`fit_parameter`: a sign condition on the second- or third-derivative
expression of segment `i` at sample point `x`. -/
inductive ShapeCon where
  | der2Nonneg (i : ℕ) (x : ℚ)
  | der3Nonneg (i : ℕ) (x : ℚ)
  | der3Nonpos (i : ℕ) (x : ℚ)
deriving DecidableEq, Repr

/-- Meaning of a shape constraint for degree `d` and coefficient matrix
`a`. -/
def ShapeCon.holds (d : ℕ) (a : ℕ → ℕ → ℚ) : ShapeCon → Prop
  | ShapeCon.der2Nonneg i x => 0 ≤ polyDer2 a d i x
  | ShapeCon.der3Nonneg i x => 0 ≤ polyDer3 a d i x
  | ShapeCon.der3Nonpos i x => polyDer3 a d i x ≤ 0

/-- Shape constraints generated for one segment `i` by the second constraint
loop of `fit_parameter` (lines 123-158): for each `x0` of the sample grid
`np.arange(x_start, x_end, sampling_interval)`, the constraint
`f''(x0) ≥ 0`, followed by `f'''(x0) ≥ 0` when `x0 < konvex_until`,
`f'''(x0) ≤ 0` when `x0 > konvex_until`, and nothing when
`x0 == konvex_until`. -/
def shapeConstraintsSeg (support_points : List ℚ) (konvex_until : ℚ)
    (bounds : ℚ × ℚ) (sampling_interval : ℚ) (i : ℕ) : List ShapeCon :=
  (arangeGrid (segmentRange support_points bounds i).1
      (segmentRange support_points bounds i).2 sampling_interval).flatMap
    (fun x0 =>
      ShapeCon.der2Nonneg i x0 ::
        (if x0 < konvex_until then [ShapeCon.der3Nonneg i x0]
         else if konvex_until < x0 then [ShapeCon.der3Nonpos i x0]
         else []))

/-- All shape constraints of a fit: the per-segment constraints for segments
`i = 0 … len(support_points)`. -/
def shapeConstraints (support_points : List ℚ) (konvex_until : ℚ)
    (bounds : ℚ × ℚ) (sampling_interval : ℚ) : List ShapeCon :=
  (List.range (support_points.length + 1)).flatMap
    (shapeConstraintsSeg support_points konvex_until bounds sampling_interval)

/-- A constraint of the quadratic program built by `fit_parameter`: either a
smoothness equality or a shape inequality. -/
inductive FitCon where
  | smooth (c : SmoothCon)
  | shape (c : ShapeCon)
deriving DecidableEq, Repr

/-- Whether a constraint of the program is a scalar equality constraint
(the smoothness constraints are equalities, the shape constraints are
inequalities). -/
def FitCon.isEquality : FitCon → Bool
  | FitCon.smooth _ => true
  | FitCon.shape _ => false

/-- The full constraint list built by `fit_parameter`, in construction
order: the smoothness loop runs first, then the shape-sampling loop. -/
def fit_constraints (support_points : List ℚ) (konvex_until : ℚ)
    (bounds : ℚ × ℚ) (sampling_interval : ℚ) : List FitCon :=
  (smoothnessConstraints support_points).map FitCon.smooth ++
    (shapeConstraints support_points konvex_until bounds sampling_interval).map
      FitCon.shape

/-- The bracket-search loop shared by `get_location` in `fit_parameter` and
the evaluator of `assemble_splines`: the first `i` in
`range(len(support_points) - 1)` with
`support_points[i] <= x <= support_points[i+1]`, if any. -/
def findBracket (support_points : List ℚ) (x : ℚ) : Option ℕ :=
  (List.range (support_points.length - 1)).find?
    (fun i => decide (support_points.getD i 0 ≤ x ∧ x ≤ support_points.getD (i + 1) 0))

/-- Embedding of the inner function `get_location` of `fit_parameter`
(lines 161-201).  The result is `none` when the Python call does not return
a pair: either `support_points` is empty (`support_points[0]` raises
`IndexError`) or the loop falls through and the function implicitly returns
`None`.  Otherwise it returns the pair `(i_left, i_right)` of the source. -/
def get_location (support_points : List ℚ) (x : ℚ) :
    Option (Option ℕ × Option ℕ) :=
  match support_points.head?, support_points.getLast? with
  | some h, some l =>
    if x ≤ h then some (none, some 0)
    else if l ≤ x then some (some (support_points.length - 1), none)
    else (findBracket support_points x).map (fun i => (some i, some (i + 1)))
  | _, _ => none

/-- Segment index assigned to an observation with x-coordinate `x` by the
residual loop of `fit_parameter` (lines 205-217):
`i = right_index if right_index is not None else len(support_points)`. -/
def fitterSegIndex (support_points : List ℚ) (x : ℚ) : Option ℕ :=
  (get_location support_points x).map
    (fun li => match li.2 with
      | some r => r
      | none => support_points.length)

/-- Segment index computed by the evaluator returned by `assemble_splines`
(lines 287-299): `0` when `x ≤ support_points[0]`, `num_segments - 1` when
`x ≥ support_points[-1]`, otherwise `i + 1` for the first bracket `i` found,
with the fallback `num_segments - 1` when no bracket is found.  `none`
models the `IndexError` of `support_points[0]` on an empty list. -/
def assembleSegIndex (support_points : List ℚ) (num_segments : ℕ) (x : ℚ) :
    Option ℕ :=
  match support_points.head?, support_points.getLast? with
  | some h, some l =>
    if x ≤ h then some 0
    else if l ≤ x then some (num_segments - 1)
    else some (((findBracket support_points x).map (fun i => i + 1)).getD
      (num_segments - 1))
  | _, _ => none

/-- Evaluation branch `derivative == 0` of the evaluator of
`assemble_splines`: `Σ_j matrix[j, seg] · x^(degree - j)` over
`j in range(num_rows)` with `degree = num_rows - 1`. -/
def evalPoly0 (a : ℕ → ℕ → ℚ) (num_rows seg : ℕ) (x : ℚ) : ℚ :=
  ∑ j ∈ Finset.range num_rows, a j seg * x ^ (num_rows - 1 - j)

/-- Evaluation branch `derivative == 1` of the evaluator of
`assemble_splines`: `Σ_j matrix[j, seg] · (degree - j) · x^(degree - j - 1)`
over `j in range(num_rows - 1)`. -/
def evalPoly1 (a : ℕ → ℕ → ℚ) (num_rows seg : ℕ) (x : ℚ) : ℚ :=
  ∑ j ∈ Finset.range (num_rows - 1),
    a j seg * ((num_rows - 1 - j : ℕ) : ℚ) * x ^ (num_rows - 1 - j - 1)

/-- Evaluation branch `derivative == 2` of the evaluator of
`assemble_splines`:
`Σ_j matrix[j, seg] · (degree - j) · (degree - j - 1) · x^(degree - j - 2)`
over `j in range(num_rows - 2)`. -/
def evalPoly2 (a : ℕ → ℕ → ℚ) (num_rows seg : ℕ) (x : ℚ) : ℚ :=
  ∑ j ∈ Finset.range (num_rows - 2),
    a j seg * ((num_rows - 1 - j : ℕ) : ℚ) * ((num_rows - 1 - j - 1 : ℕ) : ℚ) *
      x ^ (num_rows - 1 - j - 2)

/-- Embedding of `model.py::assemble_splines`.  `num_rows` and
`num_segments` are the two components of `matrix.shape`.  A derivative order
outside `{0, 1, 2}` raises `ValueError` at construction time, before any
evaluator is returned.  The returned evaluator raises `ValueError` when `x`
is outside the closed interval `[bounds[0], bounds[1]]` and otherwise
evaluates the polynomial (or derivative) of the located segment. -/
def assemble_splines (a : ℕ → ℕ → ℚ) (num_rows num_segments : ℕ)
    (support_points : List ℚ) (bounds : ℚ × ℚ) (derivative : ℤ) :
    Except PyError (ℚ → Except PyError ℚ) :=
  if derivative = 0 ∨ derivative = 1 ∨ derivative = 2 then
    Except.ok (fun x =>
      if ¬ (bounds.1 ≤ x ∧ x ≤ bounds.2) then Except.error PyError.valueError
      else
        match assembleSegIndex support_points num_segments x with
        | none => Except.error PyError.indexError
        | some seg =>
          Except.ok
            (if derivative = 0 then evalPoly0 a num_rows seg x
             else if derivative = 1 then evalPoly1 a num_rows seg x
             else evalPoly2 a num_rows seg x))
  else Except.error PyError.valueError

/-- C2: composing `scale_x_value` with `unscale_x_value` returns the
original value exactly, over exact rational arithmetic, whenever the
original domain and the target interval are both nondegenerate. -/
theorem scale_unscale_round_trip
    (x original_x_min original_x_max scaled_min scaled_max : ℚ)
    (h1 : original_x_min ≠ original_x_max) (h2 : scaled_min ≠ scaled_max) :
    ∃ s, scale_x_value x original_x_min original_x_max (scaled_min, scaled_max) =
        Except.ok s ∧
      unscale_x_value s original_x_min original_x_max (scaled_min, scaled_max) =
        Except.ok x := by
  have hd1 : original_x_max - original_x_min ≠ 0 := sub_ne_zero_of_ne (Ne.symm h1)
  have hd2 : scaled_max - scaled_min ≠ 0 := sub_ne_zero_of_ne (Ne.symm h2)
  refine ⟨scaled_min + (x - original_x_min) * (scaled_max - scaled_min) /
      (original_x_max - original_x_min), ?_, ?_⟩
  · rw [scale_x_value, if_neg hd1]
  · rw [unscale_x_value]
    have hc : ¬ ((scaled_min, scaled_max).2 - (scaled_min, scaled_max).1 = 0) := hd2
    rw [if_neg hc]
    congr 1
    field_simp
    ring

/-- Witness for C2 at `x = 5`, domain `[0, 10]`, target `(-1, 1)`. -/
theorem scale_unscale_round_trip_witness :
    ∃ s, scale_x_value 5 0 10 ((-1 : ℚ), 1) = Except.ok s ∧
      unscale_x_value s 0 10 ((-1 : ℚ), 1) = Except.ok 5 :=
  scale_unscale_round_trip 5 0 10 (-1) 1 (by norm_num) (by norm_num)

/-- C7 counterexample: a call of `scale_x_value` with
`original_x_max == original_x_min` fails with `ZeroDivisionError` (the
unchecked float division by zero), which is a different error class from the
`ValueError` that the code raises for explicit domain checks. -/
theorem scale_degenerate_domain_counterexample :
    scale_x_value 1 2 2 ((-1 : ℚ), 1) = Except.error PyError.zeroDivisionError ∧
      (Except.error PyError.zeroDivisionError : Except PyError ℚ) ≠
        Except.error PyError.valueError := by
  constructor
  · rw [scale_x_value, if_pos (by norm_num)]
  · simp

/-- C7 amended: for every call of `scale_x_value` with
`original_x_max = original_x_min`, the call fails, but with the unchecked
`ZeroDivisionError` of the division, not with an explicitly raised domain
error. -/
theorem scale_degenerate_domain (x original_x_min original_x_max : ℚ)
    (scaled_bounds : ℚ × ℚ) (h : original_x_max = original_x_min) :
    scale_x_value x original_x_min original_x_max scaled_bounds =
      Except.error PyError.zeroDivisionError := by
  rw [scale_x_value, if_pos (by rw [h, sub_self])]

/-- Witness for C7's amended theorem at `original_x_min = original_x_max = 2`. -/
theorem scale_degenerate_domain_witness :
    scale_x_value 7 2 2 ((0 : ℚ), 1) = Except.error PyError.zeroDivisionError :=
  scale_degenerate_domain 7 2 2 (0, 1) rfl

/-- C9: the evaluator returned by `unscale_splines` satisfies
`f(x) = f_scaled(scale_x_value(x, original_x_min, original_x_max, scaled_bounds))`
for every `x`, whenever the original domain is nondegenerate; both functions
are pure, so construction and calls have no side effects. -/
theorem unscale_splines_eval (spline_scaled : ℚ → ℚ)
    (original_x_min original_x_max : ℚ) (scaled_bounds : ℚ × ℚ)
    (h : original_x_min ≠ original_x_max) (x : ℚ) :
    ∃ s, scale_x_value x original_x_min original_x_max scaled_bounds =
        Except.ok s ∧
      unscale_splines spline_scaled original_x_min original_x_max scaled_bounds x =
        Except.ok (spline_scaled s) := by
  have hd : original_x_max - original_x_min ≠ 0 := sub_ne_zero_of_ne (Ne.symm h)
  exact ⟨_, by rw [scale_x_value, if_neg hd], by rw [unscale_splines, if_neg hd]⟩

/-- Witness for C9 with `f_scaled(t) = t + 1`, domain `[0, 2]`, target
`(-1, 1)`, at `x = 0`. -/
theorem unscale_splines_eval_witness :
    ∃ s, scale_x_value 0 0 2 ((-1 : ℚ), 1) = Except.ok s ∧
      unscale_splines (fun t => t + 1) 0 2 ((-1 : ℚ), 1) 0 =
        Except.ok ((fun t => t + 1) s) :=
  unscale_splines_eval (fun t => t + 1) 0 2 (-1, 1) (by norm_num) 0

/-- Characterization of `isNondecreasing` by `List.Chain'`. -/
theorem isNondecreasing_iff : ∀ l : List ℚ,
    isNondecreasing l = true ↔ l.Chain' (· ≤ ·)
  | [] => by simp [isNondecreasing]
  | [a] => by simp [isNondecreasing]
  | a :: b :: t => by
    rw [isNondecreasing, Bool.and_eq_true, decide_eq_true_eq, List.chain'_cons,
      isNondecreasing_iff (b :: t)]

/-- Characterization of `noDuplicates` by `List.Nodup`. -/
theorem noDuplicates_iff : ∀ l : List ℚ, noDuplicates l = true ↔ l.Nodup
  | [] => by simp [noDuplicates]
  | a :: t => by
    rw [noDuplicates, Bool.and_eq_true, List.nodup_cons, ← noDuplicates_iff t]
    simp

/-- The validation phase accepts exactly the inputs satisfying the seven
checked invariants; note the absence of any condition on the sampling
interval. -/
theorem fit_validate_eq_ok_iff (points : List (ℚ × ℚ)) (sp : List ℚ)
    (kv : ℚ) (b : ℚ × ℚ) (deg : ℤ) (Δx : ℚ) :
    fit_validate points sp kv b deg Δx = Except.ok () ↔
      (b.1 < b.2 ∧ sp.Chain' (· ≤ ·) ∧ (∀ t ∈ sp, b.1 ≤ t ∧ t ≤ b.2) ∧
        sp.Nodup ∧ (∀ p ∈ points, b.1 ≤ p.1 ∧ p.1 ≤ b.2) ∧ kv ∈ sp ∧ 3 ≤ deg) := by
  rw [fit_validate]
  split_ifs with h1 h2 h3 h4 h5 h6 h7
  · simp only [decide_eq_true_eq, ge_iff_le] at h1
    simp only [reduceCtorEq, false_iff]
    rintro ⟨hb, -⟩
    exact absurd h1 (not_le.mpr hb)
  · rw [Bool.not_eq_true', ← Bool.not_eq_true, isNondecreasing_iff] at h2
    simp only [reduceCtorEq, false_iff]
    rintro ⟨-, hc, -⟩
    exact h2 hc
  · simp only [Bool.not_eq_true', List.all_eq_false] at h3
    simp only [reduceCtorEq, false_iff]
    rintro ⟨-, -, hin, -⟩
    obtain ⟨t, ht, hnot⟩ := h3
    exact hnot (by simp [(hin t ht).1, (hin t ht).2])
  · rw [Bool.not_eq_true', ← Bool.not_eq_true, noDuplicates_iff] at h4
    simp only [reduceCtorEq, false_iff]
    rintro ⟨-, -, -, hnd, -⟩
    exact h4 hnd
  · simp only [Bool.not_eq_true', List.all_eq_false] at h5
    simp only [reduceCtorEq, false_iff]
    rintro ⟨-, -, -, -, hpts, -⟩
    obtain ⟨p, hp, hnot⟩ := h5
    exact hnot (by simp [(hpts p hp).1, (hpts p hp).2])
  · simp only [Bool.not_eq_true', decide_eq_false_iff_not] at h6
    simp only [reduceCtorEq, false_iff]
    rintro ⟨-, -, -, -, -, hkv, -⟩
    exact h6 hkv
  · simp only [decide_eq_true_eq] at h7
    simp only [reduceCtorEq, false_iff]
    rintro ⟨-, -, -, -, -, -, hdeg⟩
    exact absurd h7 (not_lt.mpr hdeg)
  · simp only [true_iff]
    simp only [decide_eq_true_eq, ge_iff_le, not_le] at h1 h7
    rw [Bool.not_eq_true', ← Bool.not_eq_true, not_not] at h2 h4
    simp only [Bool.not_eq_true', ← Bool.not_eq_true, not_not,
      List.all_eq_true, Bool.and_eq_true, decide_eq_true_eq] at h3 h5
    simp only [Bool.not_eq_true', decide_eq_false_iff_not, not_not] at h6
    exact ⟨h1, (isNondecreasing_iff sp).mp h2, h3, (noDuplicates_iff sp).mp h4,
      h5, h6, not_lt.mp h7⟩

/-- The validation phase only ever returns success or a `ValueError`. -/
theorem fit_validate_outcomes (points : List (ℚ × ℚ)) (sp : List ℚ)
    (kv : ℚ) (b : ℚ × ℚ) (deg : ℤ) (Δx : ℚ) :
    fit_validate points sp kv b deg Δx = Except.ok () ∨
      fit_validate points sp kv b deg Δx = Except.error PyError.valueError := by
  rw [fit_validate]
  split_ifs <;> simp

/-- Sample grid of `np.arange` is empty whenever the signed length
`(stop - start)/step` is nonpositive (in particular for a negative step on
an increasing segment). -/
theorem arangeGrid_eq_nil (start stop step : ℚ)
    (h : (stop - start) / step ≤ 0) : arangeGrid start stop step = [] := by
  rw [arangeGrid, Int.toNat_of_nonpos (Int.ceil_le.mpr (by exact_mod_cast h))]
  rfl

/-- C1 counterexample: a call with `sampling_interval = -1` and all other
inputs well-formed passes every validation check (no validation error is
raised), and the subsequent shape-constraint construction silently produces
empty sample grids rather than failing. -/
theorem sampling_interval_not_validated_counterexample :
    fit_validate [((1 : ℚ), 1)] [1] 1 (0, 2) 3 (-1) = Except.ok () ∧
      shapeConstraints [1] 1 (0, 2) (-1) = [] := by
  constructor
  · rfl
  · have h0 : arangeGrid 0 1 (-1) = [] := arangeGrid_eq_nil 0 1 (-1) (by norm_num)
    have h1 : arangeGrid 1 2 (-1) = [] := arangeGrid_eq_nil 1 2 (-1) (by norm_num)
    simp [shapeConstraints, shapeConstraintsSeg, segmentRange, List.range_succ,
      h0, h1]

/-- C1 amended: the validation phase of `fit_parameter` accepts an input
exactly when the seven coded invariants hold (ordered bounds, nondecreasing
knots, knots inside the closed bounds interval, no duplicate knots,
observations inside bounds, pivot among the knots, degree at least 3); the
sampling interval is not inspected, so the validation outcome is the same
for every sampling interval. -/
theorem fit_validation_checks (points : List (ℚ × ℚ)) (sp : List ℚ)
    (kv : ℚ) (b : ℚ × ℚ) (deg : ℤ) (Δx : ℚ) :
    (fit_validate points sp kv b deg Δx = Except.ok () ↔
      (b.1 < b.2 ∧ sp.Chain' (· ≤ ·) ∧ (∀ t ∈ sp, b.1 ≤ t ∧ t ≤ b.2) ∧
        sp.Nodup ∧ (∀ p ∈ points, b.1 ≤ p.1 ∧ p.1 ≤ b.2) ∧ kv ∈ sp ∧ 3 ≤ deg)) ∧
    (∀ Δx' : ℚ, fit_validate points sp kv b deg Δx' =
      fit_validate points sp kv b deg Δx) :=
  ⟨fit_validate_eq_ok_iff points sp kv b deg Δx, fun _ => rfl⟩

/-- C8 counterexample: a call whose knot list contains the value
`bounds[0] = 0` (a knot on the boundary, not strictly inside) passes the
validation and is not rejected. -/
theorem boundary_knot_accepted_counterexample :
    fit_validate [((1 : ℚ), 1)] [0, 5] 0 (0, 10) 3 1 = Except.ok () := by
  rfl

/-- C8 amended: the knot-bounds check of the validation phase is inclusive:
a call with a knot strictly outside the closed interval
`[bounds[0], bounds[1]]` is rejected with a validation error, while a knot
equal to a bound passes the check (the call succeeds whenever the other
invariants hold with the knots in the closed interval). -/
theorem knot_bounds_validation (points : List (ℚ × ℚ)) (sp : List ℚ)
    (kv : ℚ) (b : ℚ × ℚ) (deg : ℤ) (Δx : ℚ) :
    ((∃ t ∈ sp, t < b.1 ∨ b.2 < t) →
      fit_validate points sp kv b deg Δx = Except.error PyError.valueError) ∧
    ((b.1 < b.2 ∧ sp.Chain' (· ≤ ·) ∧ (∀ t ∈ sp, b.1 ≤ t ∧ t ≤ b.2) ∧
        sp.Nodup ∧ (∀ p ∈ points, b.1 ≤ p.1 ∧ p.1 ≤ b.2) ∧ kv ∈ sp ∧ 3 ≤ deg) →
      fit_validate points sp kv b deg Δx = Except.ok ()) := by
  constructor
  · rintro ⟨t, ht, hout⟩
    rcases fit_validate_outcomes points sp kv b deg Δx with hok | herr
    · obtain ⟨-, -, hin, -⟩ := (fit_validate_eq_ok_iff points sp kv b deg Δx).mp hok
      rcases hout with hlt | hgt
      · exact absurd (hin t ht).1 (not_le.mpr hlt)
      · exact absurd (hin t ht).2 (not_le.mpr hgt)
    · exact herr
  · exact (fit_validate_eq_ok_iff points sp kv b deg Δx).mpr

/-- Witness for C8's amended theorem: a knot strictly outside the bounds is
rejected, and a knot equal to the upper bound is accepted. -/
theorem knot_bounds_validation_witness :
    fit_validate [] [(5 : ℚ)] 5 (0, 1) 3 1 = Except.error PyError.valueError ∧
      fit_validate [((1 : ℚ), 1)] [2, 10] 2 (0, 10) 3 1 = Except.ok () :=
  ⟨(knot_bounds_validation [] [(5 : ℚ)] 5 (0, 1) 3 1).1
      ⟨5, by simp, Or.inr (by norm_num)⟩,
    (knot_bounds_validation [((1 : ℚ), 1)] [2, 10] 2 (0, 10) 3 1).2
      ⟨by norm_num, by norm_num [List.chain'_cons], by decide, by decide,
        by decide, by decide, by decide⟩⟩

/-- The value expression of the code is the evaluation of the segment
polynomial. -/
theorem polyVal_eq_eval (a : ℕ → ℕ → ℚ) (d i : ℕ) (x : ℚ) :
    polyVal a d i x = (segPoly a d i).eval x := by
  simp [polyVal, segPoly, Polynomial.eval_finset_sum]

/-- Formal derivative of the segment polynomial, term by term. -/
theorem segPoly_derivative (a : ℕ → ℕ → ℚ) (d i : ℕ) :
    Polynomial.derivative (segPoly a d i) =
      ∑ j ∈ Finset.range (d + 1),
        Polynomial.C (a j i * ((d - j : ℕ) : ℚ)) * Polynomial.X ^ (d - j - 1) := by
  rw [segPoly, Polynomial.derivative_sum]
  exact Finset.sum_congr rfl fun j _ => Polynomial.derivative_C_mul_X_pow _ _

/-- Second formal derivative of the segment polynomial, term by term. -/
theorem segPoly_derivative2 (a : ℕ → ℕ → ℚ) (d i : ℕ) :
    Polynomial.derivative (Polynomial.derivative (segPoly a d i)) =
      ∑ j ∈ Finset.range (d + 1),
        Polynomial.C (a j i * ((d - j : ℕ) : ℚ) * ((d - j - 1 : ℕ) : ℚ)) *
          Polynomial.X ^ (d - j - 1 - 1) := by
  rw [segPoly_derivative, Polynomial.derivative_sum]
  exact Finset.sum_congr rfl fun j _ => Polynomial.derivative_C_mul_X_pow _ _

/-- Third formal derivative of the segment polynomial, term by term. -/
theorem segPoly_derivative3 (a : ℕ → ℕ → ℚ) (d i : ℕ) :
    Polynomial.derivative (Polynomial.derivative (Polynomial.derivative (segPoly a d i))) =
      ∑ j ∈ Finset.range (d + 1),
        Polynomial.C (a j i * ((d - j : ℕ) : ℚ) * ((d - j - 1 : ℕ) : ℚ) *
            ((d - j - 1 - 1 : ℕ) : ℚ)) *
          Polynomial.X ^ (d - j - 1 - 1 - 1) := by
  rw [segPoly_derivative2, Polynomial.derivative_sum]
  exact Finset.sum_congr rfl fun j _ => Polynomial.derivative_C_mul_X_pow _ _

/-- The first-derivative expression of the code evaluates the formal first
derivative of the segment polynomial. -/
theorem polyDer1_eq_eval (a : ℕ → ℕ → ℚ) (d i : ℕ) (x : ℚ) :
    polyDer1 a d i x = (Polynomial.derivative (segPoly a d i)).eval x := by
  rw [segPoly_derivative, Polynomial.eval_finset_sum, polyDer1]
  simp only [Polynomial.eval_mul, Polynomial.eval_C, Polynomial.eval_pow,
    Polynomial.eval_X]
  refine Finset.sum_subset (Finset.range_subset.mpr (Nat.le_succ d)) ?_
  intro j hj hnj
  simp only [Finset.mem_range, not_lt] at hnj
  have h0 : d - j = 0 := by omega
  rw [h0]
  simp

/-- The second-derivative expression of the code evaluates the formal second
derivative of the segment polynomial. -/
theorem polyDer2_eq_eval (a : ℕ → ℕ → ℚ) (d i : ℕ) (x : ℚ) :
    polyDer2 a d i x =
      (Polynomial.derivative (Polynomial.derivative (segPoly a d i))).eval x := by
  rw [segPoly_derivative2, Polynomial.eval_finset_sum, polyDer2]
  simp only [Polynomial.eval_mul, Polynomial.eval_C, Polynomial.eval_pow,
    Polynomial.eval_X]
  refine (Finset.sum_congr rfl fun j _ => ?_).trans
    (Finset.sum_subset (Finset.range_subset.mpr (by omega)) ?_)
  · rw [show d - j - 2 = d - j - 1 - 1 by omega]
  · intro j hj hnj
    simp only [Finset.mem_range, not_lt] at hnj
    have h0 : d - j - 1 = 0 := by omega
    rw [h0]
    simp

/-- The third-derivative expression of the code evaluates the formal third
derivative of the segment polynomial. -/
theorem polyDer3_eq_eval (a : ℕ → ℕ → ℚ) (d i : ℕ) (x : ℚ) :
    polyDer3 a d i x =
      (Polynomial.derivative (Polynomial.derivative
        (Polynomial.derivative (segPoly a d i)))).eval x := by
  rw [segPoly_derivative3, Polynomial.eval_finset_sum, polyDer3]
  simp only [Polynomial.eval_mul, Polynomial.eval_C, Polynomial.eval_pow,
    Polynomial.eval_X]
  refine (Finset.sum_congr rfl fun j _ => ?_).trans
    (Finset.sum_subset (Finset.range_subset.mpr (by omega)) ?_)
  · rw [show d - j - 2 = d - j - 1 - 1 by omega,
      show d - j - 3 = d - j - 1 - 1 - 1 by omega]
  · intro j hj hnj
    simp only [Finset.mem_range, not_lt] at hnj
    have h0 : d - j - 1 - 1 = 0 := by omega
    rw [h0]
    simp

/-- Number of smoothness constraints: three per support point. -/
theorem smoothnessConstraints_length (sp : List ℚ) :
    (smoothnessConstraints sp).length = 3 * sp.length := by
  rw [smoothnessConstraints, List.length_flatMap]
  have h : List.map (List.length ∘ fun i =>
      [SmoothCon.val i (sp.getD i 0), SmoothCon.der1 i (sp.getD i 0),
        SmoothCon.der2 i (sp.getD i 0)]) (List.range sp.length) =
      List.replicate sp.length 3 := by
    refine List.eq_replicate_iff.mpr ⟨by simp, ?_⟩
    intro b hb
    obtain ⟨i, -, rfl⟩ := List.mem_map.mp hb
    rfl
  rw [h, List.sum_replicate, smul_eq_mul, mul_comm]

/-- Membership characterization for the smoothness-constraint list. -/
theorem mem_smoothnessConstraints (sp : List ℚ) (c : SmoothCon) :
    c ∈ smoothnessConstraints sp ↔ ∃ i, i < sp.length ∧
      (c = SmoothCon.val i (sp.getD i 0) ∨ c = SmoothCon.der1 i (sp.getD i 0) ∨
        c = SmoothCon.der2 i (sp.getD i 0)) := by
  simp [smoothnessConstraints, List.mem_flatMap, List.mem_range]

/-- C5: the constructed program contains exactly `3 · M` scalar equality
constraints (`M` the number of knots), namely, for each knot `i`, equality
of the value, the first derivative and the second derivative of the left
segment's polynomial with those of the right segment's polynomial at the
knot's x-coordinate; derivatives here are genuine formal polynomial
derivatives of the segment polynomials. -/
theorem smoothness_constraints_spec (sp : List ℚ) (kv : ℚ) (b : ℚ × ℚ)
    (Δx : ℚ) (d : ℕ) (a : ℕ → ℕ → ℚ) :
    ((fit_constraints sp kv b Δx).countP FitCon.isEquality = 3 * sp.length) ∧
    ((smoothnessConstraints sp).length = 3 * sp.length) ∧
    (∀ c ∈ smoothnessConstraints sp, ∃ i, i < sp.length ∧
      (c = SmoothCon.val i (sp.getD i 0) ∨ c = SmoothCon.der1 i (sp.getD i 0) ∨
        c = SmoothCon.der2 i (sp.getD i 0))) ∧
    (∀ i, i < sp.length →
      SmoothCon.val i (sp.getD i 0) ∈ smoothnessConstraints sp ∧
      SmoothCon.der1 i (sp.getD i 0) ∈ smoothnessConstraints sp ∧
      SmoothCon.der2 i (sp.getD i 0) ∈ smoothnessConstraints sp) ∧
    (∀ i x, (SmoothCon.holds d a (SmoothCon.val i x) ↔
        (segPoly a d i).eval x = (segPoly a d (i + 1)).eval x) ∧
      (SmoothCon.holds d a (SmoothCon.der1 i x) ↔
        (Polynomial.derivative (segPoly a d i)).eval x =
          (Polynomial.derivative (segPoly a d (i + 1))).eval x) ∧
      (SmoothCon.holds d a (SmoothCon.der2 i x) ↔
        (Polynomial.derivative (Polynomial.derivative (segPoly a d i))).eval x =
          (Polynomial.derivative (Polynomial.derivative (segPoly a d (i + 1)))).eval x)) := by
  refine ⟨?_, smoothnessConstraints_length sp, ?_, ?_, ?_⟩
  · rw [fit_constraints, List.countP_append, List.countP_map, List.countP_map]
    have h1 : List.countP (FitCon.isEquality ∘ FitCon.smooth)
        (smoothnessConstraints sp) = (smoothnessConstraints sp).length := by
      simp [List.countP_eq_length, Function.comp, FitCon.isEquality]
    have h2 : List.countP (FitCon.isEquality ∘ FitCon.shape)
        (shapeConstraints sp kv b Δx) = 0 := by
      simp [List.countP_eq_zero, Function.comp, FitCon.isEquality]
    rw [h1, h2, smoothnessConstraints_length sp, Nat.add_zero]
  · exact fun c hc => (mem_smoothnessConstraints sp c).mp hc
  · intro i hi
    exact ⟨(mem_smoothnessConstraints sp _).mpr ⟨i, hi, Or.inl rfl⟩,
      (mem_smoothnessConstraints sp _).mpr ⟨i, hi, Or.inr (Or.inl rfl)⟩,
      (mem_smoothnessConstraints sp _).mpr ⟨i, hi, Or.inr (Or.inr rfl)⟩⟩
  · intro i x
    refine ⟨?_, ?_, ?_⟩
    · rw [show SmoothCon.holds d a (SmoothCon.val i x) =
          (polyVal a d i x = polyVal a d (i + 1) x) from rfl,
        polyVal_eq_eval, polyVal_eq_eval]
    · rw [show SmoothCon.holds d a (SmoothCon.der1 i x) =
          (polyDer1 a d i x = polyDer1 a d (i + 1) x) from rfl,
        polyDer1_eq_eval, polyDer1_eq_eval]
    · rw [show SmoothCon.holds d a (SmoothCon.der2 i x) =
          (polyDer2 a d i x = polyDer2 a d (i + 1) x) from rfl,
        polyDer2_eq_eval, polyDer2_eq_eval]

/-- Membership in the `np.arange` sample grid: exactly the points
`start + k·step` with `k < (stop - start)/step`. -/
theorem mem_arangeGrid (start stop step x : ℚ) :
    x ∈ arangeGrid start stop step ↔
      ∃ k : ℕ, ((k : ℚ) < (stop - start) / step ∧ x = start + (k : ℚ) * step) := by
  rw [arangeGrid]
  constructor
  · intro hx
    obtain ⟨k, hk, hkx⟩ := List.mem_map.mp hx
    rw [List.mem_range] at hk
    exact ⟨k, by exact_mod_cast Int.lt_ceil.mp (Int.lt_toNat.mp hk), hkx.symm⟩
  · rintro ⟨k, hk, rfl⟩
    refine List.mem_map.mpr ⟨k, ?_, rfl⟩
    rw [List.mem_range, Int.lt_toNat, Int.lt_ceil]
    exact_mod_cast hk

/-- For a positive step, every sample of the grid lies in the half-open
segment `[start, stop)`: the end boundary is never a sample. -/
theorem arangeGrid_mem_bounds (start stop step x : ℚ) (hstep : 0 < step)
    (hx : x ∈ arangeGrid start stop step) : start ≤ x ∧ x < stop := by
  obtain ⟨k, hk, rfl⟩ := (mem_arangeGrid start stop step _).mp hx
  constructor
  · have h0 : 0 ≤ (k : ℚ) * step := mul_nonneg (Nat.cast_nonneg k) hstep.le
    linarith
  · have h1 := (lt_div_iff₀ hstep).mp hk
    linarith

/-- Membership in the block of constraints the shape loop appends for one
sample point `x0` of segment `i`. -/
theorem mem_shapeBlock (c : ShapeCon) (i : ℕ) (kv x0 : ℚ) :
    c ∈ (ShapeCon.der2Nonneg i x0 ::
      (if x0 < kv then [ShapeCon.der3Nonneg i x0]
       else if kv < x0 then [ShapeCon.der3Nonpos i x0] else [])) ↔
      (c = ShapeCon.der2Nonneg i x0 ∨ (x0 < kv ∧ c = ShapeCon.der3Nonneg i x0) ∨
        (kv < x0 ∧ c = ShapeCon.der3Nonpos i x0)) := by
  split_ifs with h1 h2
  · have h3 : ¬ kv < x0 := lt_asymm h1
    simp [List.mem_cons, h1, h3]
  · simp [List.mem_cons, h1, h2]
  · simp [List.mem_cons, h1, h2]

/-- Membership characterization for the full shape-constraint list. -/
theorem mem_shapeConstraints (sp : List ℚ) (kv : ℚ) (b : ℚ × ℚ) (Δx : ℚ)
    (c : ShapeCon) :
    c ∈ shapeConstraints sp kv b Δx ↔ ∃ i, i < sp.length + 1 ∧
      ∃ x0 ∈ arangeGrid (segmentRange sp b i).1 (segmentRange sp b i).2 Δx,
        (c = ShapeCon.der2Nonneg i x0 ∨ (x0 < kv ∧ c = ShapeCon.der3Nonneg i x0) ∨
          (kv < x0 ∧ c = ShapeCon.der3Nonpos i x0)) := by
  simp only [shapeConstraints, shapeConstraintsSeg, List.mem_flatMap,
    List.mem_range, mem_shapeBlock]

/-- The shape loop never imposes a third-derivative constraint at the pivot
itself. -/
theorem pivot_not_constrained (sp : List ℚ) (kv : ℚ) (b : ℚ × ℚ) (Δx : ℚ)
    (i : ℕ) :
    ShapeCon.der3Nonneg i kv ∉ shapeConstraints sp kv b Δx ∧
      ShapeCon.der3Nonpos i kv ∉ shapeConstraints sp kv b Δx := by
  constructor
  · intro h
    obtain ⟨i', -, x0, -, hc⟩ := (mem_shapeConstraints sp kv b Δx _).mp h
    rcases hc with h1 | ⟨h2, h3⟩ | ⟨h4, h5⟩
    · exact ShapeCon.noConfusion h1
    · injection h3 with hi hx
      rw [hx] at h2
      exact lt_irrefl x0 h2
    · exact ShapeCon.noConfusion h5
  · intro h
    obtain ⟨i', -, x0, -, hc⟩ := (mem_shapeConstraints sp kv b Δx _).mp h
    rcases hc with h1 | ⟨h2, h3⟩ | ⟨h4, h5⟩
    · exact ShapeCon.noConfusion h1
    · exact ShapeCon.noConfusion h3
    · injection h5 with hi hx
      rw [hx] at h4
      exact lt_irrefl x0 h4

/-- C4 amended: for a positive sampling interval, the shape constraints of
every segment are imposed exactly at the samples `x_start + k·Δx` of the
half-open grid `np.arange(x_start, x_end, Δx)` — the segment's end boundary
is excluded, not included; at each sample the second derivative of the
segment's polynomial is constrained nonnegative, the third derivative is
constrained nonnegative at samples strictly below the pivot and nonpositive
at samples strictly above it, and no third-derivative constraint is imposed
at a sample equal to the pivot. -/
theorem shape_constraint_sampling (sp : List ℚ) (kv : ℚ) (b : ℚ × ℚ)
    (Δx : ℚ) (hΔ : 0 < Δx) (d : ℕ) (a : ℕ → ℕ → ℚ) :
    (∀ i x0, x0 ∈ arangeGrid (segmentRange sp b i).1 (segmentRange sp b i).2 Δx ↔
      ∃ k : ℕ, ((k : ℚ) < ((segmentRange sp b i).2 - (segmentRange sp b i).1) / Δx ∧
        x0 = (segmentRange sp b i).1 + (k : ℚ) * Δx)) ∧
    (∀ i x0, x0 ∈ arangeGrid (segmentRange sp b i).1 (segmentRange sp b i).2 Δx →
      (segmentRange sp b i).1 ≤ x0 ∧ x0 < (segmentRange sp b i).2) ∧
    (∀ c, c ∈ shapeConstraints sp kv b Δx ↔ ∃ i, i < sp.length + 1 ∧
      ∃ x0 ∈ arangeGrid (segmentRange sp b i).1 (segmentRange sp b i).2 Δx,
        (c = ShapeCon.der2Nonneg i x0 ∨ (x0 < kv ∧ c = ShapeCon.der3Nonneg i x0) ∨
          (kv < x0 ∧ c = ShapeCon.der3Nonpos i x0))) ∧
    (∀ i, ShapeCon.der3Nonneg i kv ∉ shapeConstraints sp kv b Δx ∧
      ShapeCon.der3Nonpos i kv ∉ shapeConstraints sp kv b Δx) ∧
    (∀ i x0, (ShapeCon.holds d a (ShapeCon.der2Nonneg i x0) ↔
        0 ≤ (Polynomial.derivative (Polynomial.derivative (segPoly a d i))).eval x0) ∧
      (ShapeCon.holds d a (ShapeCon.der3Nonneg i x0) ↔
        0 ≤ (Polynomial.derivative (Polynomial.derivative
          (Polynomial.derivative (segPoly a d i)))).eval x0) ∧
      (ShapeCon.holds d a (ShapeCon.der3Nonpos i x0) ↔
        (Polynomial.derivative (Polynomial.derivative
          (Polynomial.derivative (segPoly a d i)))).eval x0 ≤ 0)) := by
  refine ⟨?_, ?_, ?_, ?_, ?_⟩
  · intro i x0
    exact mem_arangeGrid _ _ _ _
  · intro i x0 hx0
    exact arangeGrid_mem_bounds _ _ _ _ hΔ hx0
  · intro c
    exact mem_shapeConstraints sp kv b Δx c
  · intro i
    exact pivot_not_constrained sp kv b Δx i
  · intro i x0
    refine ⟨?_, ?_, ?_⟩
    · rw [show ShapeCon.holds d a (ShapeCon.der2Nonneg i x0) =
          (0 ≤ polyDer2 a d i x0) from rfl, polyDer2_eq_eval]
    · rw [show ShapeCon.holds d a (ShapeCon.der3Nonneg i x0) =
          (0 ≤ polyDer3 a d i x0) from rfl, polyDer3_eq_eval]
    · rw [show ShapeCon.holds d a (ShapeCon.der3Nonpos i x0) =
          (polyDer3 a d i x0 ≤ 0) from rfl, polyDer3_eq_eval]

/-- Witness for C4's amended theorem at `Δx = 1`: the pivot carries no
third-derivative constraint in a concrete configuration. -/
theorem shape_constraint_sampling_witness :
    ShapeCon.der3Nonneg 0 0 ∉ shapeConstraints [] 0 ((0 : ℚ), 1) 1 ∧
      ShapeCon.der3Nonpos 0 0 ∉ shapeConstraints [] 0 ((0 : ℚ), 1) 1 :=
  (shape_constraint_sampling [] 0 ((0 : ℚ), 1) 1 (by norm_num) 3
    (fun _ _ => 0)).2.2.2.1 0

/-- C4 counterexample: for the fit with knot list `[2]`, pivot `2`, bounds
`(0, 4)` and sampling interval `1`, segment 0 is `[0, 2]` and its sample
grid is `[0, 1]`: the segment's end boundary `2` is not a sample, and no
second-derivative constraint for segment 0 is imposed at `x = 2`. -/
theorem segment_end_not_sampled_counterexample :
    segmentRange [(2 : ℚ)] (0, 4) 0 = (0, 2) ∧
    arangeGrid 0 2 1 = [0, 1] ∧
    (2 : ℚ) ∉ arangeGrid 0 2 1 ∧
    ShapeCon.der2Nonneg 0 2 ∉ shapeConstraints [(2 : ℚ)] 2 (0, 4) 1 := by
  have e1 : arangeGrid 0 2 1 = [0, 1] := by
    rw [arangeGrid, show ⌈((2 : ℚ) - 0) / 1⌉ = 2 by rw [Int.ceil_eq_iff]; norm_num,
      show Int.toNat 2 = 2 from rfl, show List.range 2 = [0, 1] from rfl]
    norm_num
  have e2 : arangeGrid 2 4 1 = [2, 3] := by
    rw [arangeGrid, show ⌈((4 : ℚ) - 2) / 1⌉ = 2 by rw [Int.ceil_eq_iff]; norm_num,
      show Int.toNat 2 = 2 from rfl, show List.range 2 = [0, 1] from rfl]
    norm_num
  have e3 : shapeConstraints [(2 : ℚ)] 2 (0, 4) 1 =
      [ShapeCon.der2Nonneg 0 0, ShapeCon.der3Nonneg 0 0,
       ShapeCon.der2Nonneg 0 1, ShapeCon.der3Nonneg 0 1,
       ShapeCon.der2Nonneg 1 2,
       ShapeCon.der2Nonneg 1 3, ShapeCon.der3Nonpos 1 3] := by
    norm_num [shapeConstraints, shapeConstraintsSeg, segmentRange,
      List.range_succ, e1, e2]
  refine ⟨by norm_num [segmentRange], e1, ?_, ?_⟩
  · rw [e1]
    norm_num
  · rw [e3]
    decide

/-- Computation of `find?` over `range'`: the least satisfying index is
returned. -/
theorem find?_range'_eq_some (p : ℕ → Bool) :
    ∀ (n s m : ℕ), s ≤ m → m < s + n → p m = true →
      (∀ j, s ≤ j → j < m → p j = false) →
      (List.range' s n).find? p = some m
  | 0, s, m, hsm, hmn, _, _ => absurd hmn (by omega)
  | n + 1, s, m, hsm, hmn, hp, hmin => by
    rw [List.range'_succ]
    rcases Nat.eq_or_lt_of_le hsm with heq | hlt
    · rw [heq]
      exact List.find?_cons_of_pos _ hp
    · rw [List.find?_cons_of_neg _ (by rw [hmin s le_rfl hlt]; simp)]
      exact find?_range'_eq_some p n (s + 1) m hlt (by omega) hp
        (fun j hj1 hj2 => hmin j (by omega) hj2)

/-- Computation of `find?` over `range`: the least satisfying index is
returned. -/
theorem find?_range_eq_some (p : ℕ → Bool) (n m : ℕ) (hmn : m < n)
    (hp : p m = true) (hmin : ∀ j, j < m → p j = false) :
    (List.range n).find? p = some m := by
  rw [List.range_eq_range']
  exact find?_range'_eq_some p n 0 m (Nat.zero_le m) (by omega) hp
    (fun j _ hj => hmin j hj)

/-- Strict monotonicity of indexed access in a strictly ascending list. -/
theorem getD_lt_getD (l : List ℚ) (hl : l.Chain' (· < ·)) {i j : ℕ}
    (hij : i < j) (hj : j < l.length) : l.getD i 0 < l.getD j 0 := by
  have hp := List.chain'_iff_pairwise.mp hl
  have h := List.pairwise_iff_getElem.mp hp i j (lt_trans hij hj) hj hij
  rwa [List.getD_eq_getElem l 0 (lt_trans hij hj), List.getD_eq_getElem l 0 hj]

/-- In a strictly ascending list, every point strictly between the first and
the last element admits a bracketing pair of consecutive elements, and there
is a least such bracket. -/
theorem exists_least_bracket (x : ℚ) :
    ∀ l : List ℚ, l.Chain' (· < ·) → l.getD 0 0 < x →
      x < l.getD (l.length - 1) 0 →
      ∃ i, i + 1 < l.length ∧ (l.getD i 0 ≤ x ∧ x ≤ l.getD (i + 1) 0) ∧
        ∀ j, j < i → ¬(l.getD j 0 ≤ x ∧ x ≤ l.getD (j + 1) 0)
  | [] => fun _ h0 h1 => absurd (lt_trans h0 h1) (lt_irrefl 0)
  | [a] => fun _ h0 h1 => absurd (lt_trans h0 h1) (lt_irrefl a)
  | a :: b :: t => fun hc h0 h1 => by
    by_cases hxb : x ≤ b
    · refine ⟨0, by simp, ⟨le_of_lt h0, hxb⟩, fun j hj => absurd hj (Nat.not_lt_zero j)⟩
    · push_neg at hxb
      have hc' : (b :: t).Chain' (· < ·) := hc.tail
      have h1' : x < (b :: t).getD ((b :: t).length - 1) 0 := by
        have he : (a :: b :: t).length - 1 = ((b :: t).length - 1) + 1 := by
          simp
        rw [he, List.getD_cons_succ] at h1
        exact h1
      obtain ⟨i, hi1, hi2, hi3⟩ := exists_least_bracket x (b :: t) hc' hxb h1'
      refine ⟨i + 1, by simpa using Nat.succ_lt_succ hi1, ?_, ?_⟩
      · rw [List.getD_cons_succ, List.getD_cons_succ]
        exact hi2
      · intro j hj
        cases j with
        | zero =>
          rintro ⟨-, hx2⟩
          rw [List.getD_cons_succ, List.getD_cons_zero] at hx2
          exact absurd hx2 (not_le.mpr hxb)
        | succ j' =>
          intro hcontra
          rw [List.getD_cons_succ, List.getD_cons_succ, List.getD_cons_succ] at hcontra
          exact hi3 j' (by omega) hcontra

/-- The bracket-search loop finds the least bracket whenever `x` lies
strictly between the first and the last support point of a strictly
ascending list. -/
theorem findBracket_eq_some (sp : List ℚ) (x : ℚ) (hs : sp.Chain' (· < ·))
    (h0 : sp.getD 0 0 < x) (h1 : x < sp.getD (sp.length - 1) 0) :
    ∃ i, findBracket sp x = some i ∧ i + 1 < sp.length ∧
      sp.getD i 0 ≤ x ∧ x ≤ sp.getD (i + 1) 0 ∧
      ∀ j, j < i → ¬(sp.getD j 0 ≤ x ∧ x ≤ sp.getD (j + 1) 0) := by
  obtain ⟨i, hi1, hi2, hi3⟩ := exists_least_bracket x sp hs h0 h1
  refine ⟨i, ?_, hi1, hi2.1, hi2.2, hi3⟩
  rw [findBracket]
  exact find?_range_eq_some _ (sp.length - 1) i (by omega)
    (decide_eq_true ⟨hi2.1, hi2.2⟩) (fun j hj => decide_eq_false (hi3 j hj))

/-- Head of a nonempty list via `getD`. -/
theorem head?_eq_getD (l : List ℚ) (h : l ≠ []) :
    l.head? = some (l.getD 0 0) := by
  match l, h with
  | a :: t, _ =>
    rw [List.head?_cons, List.getD_cons_zero]

/-- Last element of a nonempty list via `getD`. -/
theorem getLast?_eq_getD (l : List ℚ) (h : l ≠ []) :
    l.getLast? = some (l.getD (l.length - 1) 0) := by
  rw [List.getLast?_eq_getLast l h, List.getLast_eq_getElem l h,
    List.getD_eq_getElem l 0 (Nat.sub_lt (List.length_pos.mpr h) Nat.one_pos)]

/-- Branch structure of the evaluator's segment selection on a nonempty
knot list. -/
theorem assembleSegIndex_eq (sp : List ℚ) (hne : sp ≠ []) (ns : ℕ) (x : ℚ) :
    assembleSegIndex sp ns x =
      if x ≤ sp.getD 0 0 then some 0
      else if sp.getD (sp.length - 1) 0 ≤ x then some (ns - 1)
      else some (((findBracket sp x).map (fun i => i + 1)).getD (ns - 1)) := by
  rw [assembleSegIndex, head?_eq_getD sp hne, getLast?_eq_getD sp hne]

/-- Branch structure of `get_location` on a nonempty knot list. -/
theorem get_location_eq (sp : List ℚ) (hne : sp ≠ []) (x : ℚ) :
    get_location sp x =
      if x ≤ sp.getD 0 0 then some (none, some 0)
      else if sp.getD (sp.length - 1) 0 ≤ x then some (some (sp.length - 1), none)
      else (findBracket sp x).map (fun i => (some i, some (i + 1))) := by
  rw [get_location, head?_eq_getD sp hne, getLast?_eq_getD sp hne]

/-- Branch structure of the fitter's segment selection on a nonempty knot
list. -/
theorem fitterSegIndex_eq (sp : List ℚ) (hne : sp ≠ []) (x : ℚ) :
    fitterSegIndex sp x =
      if x ≤ sp.getD 0 0 then some 0
      else if sp.getD (sp.length - 1) 0 ≤ x then some sp.length
      else (findBracket sp x).map (fun i => i + 1) := by
  rw [fitterSegIndex, get_location_eq sp hne x]
  split_ifs
  · rfl
  · rfl
  · cases findBracket sp x <;> rfl

/-- C3 amended: the fitter's residual assignment and the assembled
evaluator use the same segment index: `0` when `x ≤ knots[0]`, otherwise
`len(knots)` when `x ≥ knots[-1]`, otherwise `i + 1` for the least `i` with
`knots[i] ≤ x ≤ knots[i+1]`.  At a shared boundary the lower-indexed (left)
containing segment is used for every knot except the last: a point equal to
knot `k` with `k + 1 < len(knots)` is assigned segment `k`, while a point
equal to the last knot is assigned the segment to its right,
`len(knots)`. -/
theorem segment_location_rule (sp : List ℚ) (x : ℚ) (hs : sp.Chain' (· < ·))
    (hne : sp ≠ []) :
    (fitterSegIndex sp x = assembleSegIndex sp (sp.length + 1) x) ∧
    (x ≤ sp.getD 0 0 → fitterSegIndex sp x = some 0) ∧
    (sp.getD 0 0 < x → sp.getD (sp.length - 1) 0 ≤ x →
      fitterSegIndex sp x = some sp.length) ∧
    (sp.getD 0 0 < x → x < sp.getD (sp.length - 1) 0 →
      ∃ i, findBracket sp x = some i ∧ fitterSegIndex sp x = some (i + 1) ∧
        sp.getD i 0 ≤ x ∧ x ≤ sp.getD (i + 1) 0 ∧
        ∀ j, j < i → ¬(sp.getD j 0 ≤ x ∧ x ≤ sp.getD (j + 1) 0)) ∧
    (∀ k, k + 1 < sp.length → x = sp.getD k 0 → fitterSegIndex sp x = some k) := by
  refine ⟨?_, ?_, ?_, ?_, ?_⟩
  · rw [fitterSegIndex_eq sp hne x, assembleSegIndex_eq sp hne _ x]
    split_ifs with hA hB
    · rfl
    · simp
    · push_neg at hA hB
      obtain ⟨i, hfb, -, -, -, -⟩ := findBracket_eq_some sp x hs hA hB
      rw [hfb]
      rfl
  · intro h
    rw [fitterSegIndex_eq sp hne x, if_pos h]
  · intro h0 h
    rw [fitterSegIndex_eq sp hne x, if_neg (not_le.mpr h0), if_pos h]
  · intro h0 h1
    obtain ⟨i, hfb, hlt, hle1, hle2, hmin⟩ := findBracket_eq_some sp x hs h0 h1
    refine ⟨i, hfb, ?_, hle1, hle2, hmin⟩
    rw [fitterSegIndex_eq sp hne x, if_neg (not_le.mpr h0),
      if_neg (not_le.mpr h1), hfb]
    rfl
  · intro k hk hx
    cases k with
    | zero =>
      rw [fitterSegIndex_eq sp hne x, if_pos (le_of_eq hx)]
    | succ k' =>
      have hlt0 : sp.getD 0 0 < x := by
        rw [hx]
        exact getD_lt_getD sp hs (Nat.succ_pos k') (by omega)
      have hlt1 : x < sp.getD (sp.length - 1) 0 := by
        rw [hx]
        exact getD_lt_getD sp hs (by omega) (by omega)
      rw [fitterSegIndex_eq sp hne x, if_neg (not_le.mpr hlt0),
        if_neg (not_le.mpr hlt1)]
      have hfb : findBracket sp x = some k' := by
        rw [findBracket]
        refine find?_range_eq_some _ _ k' (by omega) ?_ ?_
        · refine decide_eq_true ⟨?_, ?_⟩
          · rw [hx]
            exact (getD_lt_getD sp hs (Nat.lt_succ_self k') (by omega)).le
          · rw [hx]
        · intro j hj
          refine decide_eq_false ?_
          rintro ⟨-, hx2⟩
          have hlt2 : sp.getD (j + 1) 0 < sp.getD (k' + 1) 0 :=
            getD_lt_getD sp hs (by omega) (by omega)
          rw [← hx] at hlt2
          exact absurd hx2 (not_le.mpr hlt2)
      rw [hfb]
      rfl

/-- Witness for C3's amended theorem: at a point strictly inside the first
bracket, the fitter and the evaluator agree on the segment index. -/
theorem segment_location_rule_witness :
    fitterSegIndex [(0 : ℚ), 2] 1 = assembleSegIndex [(0 : ℚ), 2] 3 1 :=
  (segment_location_rule [(0 : ℚ), 2] 1 (by norm_num [List.chain'_cons])
    (by simp)).1

/-- C3 counterexample: with knots `[0, 2]` and bounds `(-1, 3)`, a point at
the last knot `x = 2` is assigned segment index `2` (the segment to the
right of the last knot) by both the fitter and the evaluator, although the
lower-indexed segment `1` (spanning `[0, 2]`) also contains the point —
refuting the universal left-preference at shared boundaries. -/
theorem left_segment_tiebreak_counterexample :
    fitterSegIndex [(0 : ℚ), 2] 2 = some 2 ∧
    assembleSegIndex [(0 : ℚ), 2] 3 2 = some 2 ∧
    (segmentRange [(0 : ℚ), 2] (-1, 3) 1).1 ≤ 2 ∧
    (2 : ℚ) ≤ (segmentRange [(0 : ℚ), 2] (-1, 3) 1).2 := by
  refine ⟨rfl, rfl, by decide, by decide⟩

/-- C10: for a strictly ascending knot list and a point strictly between
the first and the last knot, the bracket-search loop of the evaluator finds
a bracket, and the evaluator's segment index is `i + 1` for the found
bracket `i`, for any `num_segments` — the `seg is None` fallback branch is
never taken under this precondition. -/
theorem bracket_search_total (sp : List ℚ) (x : ℚ) (hs : sp.Chain' (· < ·))
    (h0 : sp.getD 0 0 < x) (h1 : x < sp.getD (sp.length - 1) 0) :
    ∃ i, findBracket sp x = some i ∧ sp.getD i 0 ≤ x ∧ x ≤ sp.getD (i + 1) 0 ∧
      ∀ num_segments : ℕ,
        assembleSegIndex sp num_segments x = some (i + 1) := by
  have hne : sp ≠ [] := by
    intro h
    rw [h] at h0 h1
    simp only [List.getD] at h0 h1
    exact absurd (lt_trans h0 h1) (lt_irrefl _)
  obtain ⟨i, hfb, hlt, hle1, hle2, -⟩ := findBracket_eq_some sp x hs h0 h1
  refine ⟨i, hfb, hle1, hle2, fun ns => ?_⟩
  rw [assembleSegIndex_eq sp hne ns x, if_neg (not_le.mpr h0),
    if_neg (not_le.mpr h1), hfb]
  rfl

/-- Witness for C10 with knots `[0, 2, 4]` at `x = 3`. -/
theorem bracket_search_total_witness :
    ∃ i, findBracket [(0 : ℚ), 2, 4] 3 = some i ∧
      [(0 : ℚ), 2, 4].getD i 0 ≤ 3 ∧ (3 : ℚ) ≤ [(0 : ℚ), 2, 4].getD (i + 1) 0 ∧
      ∀ ns : ℕ, assembleSegIndex [(0 : ℚ), 2, 4] ns 3 = some (i + 1) :=
  bracket_search_total [(0 : ℚ), 2, 4] 3 (by norm_num [List.chain'_cons])
    (by decide) (by decide)

/-- C6 amended: for a nonempty knot list, an evaluator returned by
`assemble_splines` raises the domain `ValueError` exactly when called with
`x` outside the closed interval `[bounds[0], bounds[1]]` and returns a
numeric value for every `x` inside it, while a derivative order outside
`{0, 1, 2}` makes `assemble_splines` itself raise at construction time,
before any evaluator is returned.  (With an empty knot list the evaluator
instead raises `IndexError` even inside bounds; see the counterexample.) -/
theorem assemble_evaluator_contract (a : ℕ → ℕ → ℚ) (num_rows num_segments : ℕ)
    (sp : List ℚ) (b : ℚ × ℚ) (hsp : sp ≠ []) (derivative : ℤ) :
    ((derivative = 0 ∨ derivative = 1 ∨ derivative = 2) →
      ∃ f, assemble_splines a num_rows num_segments sp b derivative =
          Except.ok f ∧
        ∀ x : ℚ, (¬(b.1 ≤ x ∧ x ≤ b.2) → f x = Except.error PyError.valueError) ∧
          ((b.1 ≤ x ∧ x ≤ b.2) → ∃ y : ℚ, f x = Except.ok y)) ∧
    (¬(derivative = 0 ∨ derivative = 1 ∨ derivative = 2) →
      assemble_splines a num_rows num_segments sp b derivative =
        Except.error PyError.valueError) := by
  constructor
  · intro hdv
    rw [assemble_splines, if_pos hdv]
    refine ⟨_, rfl, fun x => ⟨fun hout => ?_, fun hin => ?_⟩⟩
    · rw [if_pos hout]
    · rw [if_neg (not_not_intro hin)]
      have hseg : ∃ seg, assembleSegIndex sp num_segments x = some seg := by
        rw [assembleSegIndex_eq sp hsp]
        split_ifs <;> exact ⟨_, rfl⟩
      obtain ⟨seg, hseg⟩ := hseg
      rw [hseg]
      exact ⟨_, rfl⟩
  · intro hdv
    rw [assemble_splines, if_neg hdv]

/-- Witness for C6's amended theorem: a degree-3 evaluator over knots `[1]`
and bounds `(0, 2)` raises the domain error at `x = 3` and returns a value
at `x = 1`. -/
theorem assemble_evaluator_contract_witness :
    ∃ f, assemble_splines (fun _ _ => (0 : ℚ)) 4 2 [(1 : ℚ)] (0, 2) 0 =
        Except.ok f ∧
      f 3 = Except.error PyError.valueError ∧ ∃ y : ℚ, f 1 = Except.ok y := by
  obtain ⟨f, hf, hall⟩ := (assemble_evaluator_contract (fun _ _ => (0 : ℚ)) 4 2
    [(1 : ℚ)] (0, 2) (by simp) 0).1 (Or.inl rfl)
  exact ⟨f, hf, (hall 3).1 (by norm_num), (hall 1).2 (by norm_num)⟩

/-- C6 counterexample: with an empty knot list, `assemble_splines` still
returns an evaluator, but calling it at `x = 1`, which lies inside the
bounds `(0, 2)`, raises `IndexError` (from `support_points[0]`) instead of
returning a numeric value. -/
theorem assemble_empty_knots_counterexample :
    ∃ f, assemble_splines (fun _ _ => (0 : ℚ)) 4 1 [] (0, 2) 0 = Except.ok f ∧
      ((0 : ℚ) ≤ 1 ∧ (1 : ℚ) ≤ 2) ∧ f 1 = Except.error PyError.indexError := by
  refine ⟨_, rfl, ⟨by norm_num, by norm_num⟩, rfl⟩

/-- Witness for C1's amended theorem: a fully well-formed input passes
validation. -/
theorem fit_validation_checks_witness :
    fit_validate [((1 : ℚ), 1)] [1] 1 (0, 2) 3 7 = Except.ok () :=
  ((fit_validation_checks [((1 : ℚ), 1)] [1] 1 (0, 2) 3 7).1).mpr
    ⟨by norm_num, by simp, by decide, by decide, by decide, by decide, by decide⟩

/-- Witness for C5's theorem: a fit over two knots at degree 3 carries six
equality constraints. -/
theorem smoothness_constraints_spec_witness :
    (fit_constraints [(1 : ℚ), 2] 1 (0, 3) 1).countP FitCon.isEquality = 6 :=
  (smoothness_constraints_spec [(1 : ℚ), 2] 1 (0, 3) 1 3 (fun _ _ => 0)).1
